import Mathlib

/-!
# Verification of the tracie trace-replay regression harness

Shallow embedding of `.gitlab-ci/tracie/tracie.py` (the trace-replay
regression harness of this repository) and proofs of the specification
claims about it.

External collaborators (the trace replayer `dump_trace_images`, the file
system, the HTTP layer) are modelled as an explicit environment `Env`;
filesystem and network side effects are recorded as an explicit `Effect`
list; `sys.exit` and raised exceptions become the error branch of
`Except Fatal`.
-/

namespace Tracie

/-! ## Path helpers (mirroring `os.path`) -/

/-- Split a character list on `/` (the separator semantics of
`str.split("/")`, empty groups preserved). -/
def splitSlash : List Char → List (List Char)
  | [] => [[]]
  | c :: cs =>
    let r := splitSlash cs
    if c = '/' then [] :: r
    else
      match r with
      | [] => [[c]]
      | g :: gs => (c :: g) :: gs

/-- Join path components with `/`. -/
def joinSlash : List String → String
  | [] => ""
  | [s] => s
  | s :: rest => s ++ "/" ++ joinSlash rest

/-- `os.path.dirname` for the forward-slash paths used by tracie:
everything before the last `/`, or `""` when there is no `/`.
Equals `os.path.split(p)[0]` for relative paths without trailing slash. -/
def dirname (p : String) : String :=
  joinSlash (((splitSlash p.data).dropLast).map String.mk)

/-- `os.path.split(p)[1]` (the basename): everything after the last `/`. -/
def basename (p : String) : String :=
  String.mk ((splitSlash p.data).getLastD [])

/-- `os.path.join a b` for the shapes tracie uses (`b` relative, non-empty). -/
def joinPath (a b : String) : String :=
  if a = "" then b
  else if a.data.getLastD ' ' = '/' then a ++ b
  else a ++ "/" ++ b

example : dirname "trace1/magenta.testtrace" = "trace1" := by decide
example : dirname "magenta.testtrace" = "" := by decide
example : basename "trace1/magenta.testtrace" = "magenta.testtrace" := by decide
example : joinPath "" "test" = "test" := by decide
example : joinPath "./results/" "trace1/test" = "./results/trace1/test" := by decide
example : joinPath "trace1" "test" = "trace1/test" := by decide

/-! ## MD5 (mirroring `hashlib.md5(...).hexdigest()`)

`replay` hashes the raw pixel bytes of the rendered image with MD5 and
compares the lowercase hex digest against the manifest checksum.  We
implement MD5 over byte lists (`List Nat`, each byte `< 256`). -/

/-- Truncation to 32 bits. -/
def mask32 (x : Nat) : Nat := x % 4294967296

/-- Bitwise complement on 32 bits (for `x < 2^32`). -/
def not32 (x : Nat) : Nat := 4294967295 - mask32 x

/-- 32-bit left rotation. -/
def rotl32 (x n : Nat) : Nat :=
  mask32 ((mask32 x) <<< n + (mask32 x) >>> (32 - n))

/-- The 64 MD5 sine-derived constants `K[i]`. -/
def md5K : List Nat :=
  [0xd76aa478, 0xe8c7b756, 0x242070db, 0xc1bdceee,
   0xf57c0faf, 0x4787c62a, 0xa8304613, 0xfd469501,
   0x698098d8, 0x8b44f7af, 0xffff5bb1, 0x895cd7be,
   0x6b901122, 0xfd987193, 0xa679438e, 0x49b40821,
   0xf61e2562, 0xc040b340, 0x265e5a51, 0xe9b6c7aa,
   0xd62f105d, 0x02441453, 0xd8a1e681, 0xe7d3fbc8,
   0x21e1cde6, 0xc33707d6, 0xf4d50d87, 0x455a14ed,
   0xa9e3e905, 0xfcefa3f8, 0x676f02d9, 0x8d2a4c8a,
   0xfffa3942, 0x8771f681, 0x6d9d6122, 0xfde5380c,
   0xa4beea44, 0x4bdecfa9, 0xf6bb4b60, 0xbebfbc70,
   0x289b7ec6, 0xeaa127fa, 0xd4ef3085, 0x04881d05,
   0xd9d4d039, 0xe6db99e5, 0x1fa27cf8, 0xc4ac5665,
   0xf4292244, 0x432aff97, 0xab9423a7, 0xfc93a039,
   0x655b59c3, 0x8f0ccc92, 0xffeff47d, 0x85845dd1,
   0x6fa87e4f, 0xfe2ce6e0, 0xa3014314, 0x4e0811a1,
   0xf7537e82, 0xbd3af235, 0x2ad7d2bb, 0xeb86d391]

/-- The 64 MD5 per-round left-rotation amounts `S[i]`. -/
def md5S : List Nat :=
  [7, 12, 17, 22, 7, 12, 17, 22, 7, 12, 17, 22, 7, 12, 17, 22,
   5, 9, 14, 20, 5, 9, 14, 20, 5, 9, 14, 20, 5, 9, 14, 20,
   4, 11, 16, 23, 4, 11, 16, 23, 4, 11, 16, 23, 4, 11, 16, 23,
   6, 10, 15, 21, 6, 10, 15, 21, 6, 10, 15, 21, 6, 10, 15, 21]

/-- Little-endian 32-bit word from a byte list. -/
def leWord : List Nat → Nat
  | [] => 0
  | b :: t => (b % 256) + 256 * leWord t

/-- `n` little-endian bytes of `x`. -/
def leBytes : Nat → Nat → List Nat
  | 0, _ => []
  | k + 1, x => (x % 256) :: leBytes k (x / 256)

/-- One MD5 round `i` (`0 ≤ i < 64`) on state `(a, b, c, d)` with message
schedule `M`. -/
def md5Round (M : Nat → Nat) (st : Nat × Nat × Nat × Nat) (i : Nat) :
    Nat × Nat × Nat × Nat :=
  let (a, b, c, d) := st
  let fg : Nat × Nat :=
    if i < 16 then ((b &&& c) ||| ((not32 b) &&& d), i)
    else if i < 32 then ((d &&& b) ||| ((not32 d) &&& c), (5 * i + 1) % 16)
    else if i < 48 then (b ^^^ c ^^^ d, (3 * i + 5) % 16)
    else (c ^^^ (b ||| (not32 d)), (7 * i) % 16)
  let tmp := mask32 (a + fg.1 + md5K.getD i 0 + M fg.2)
  (d, mask32 (b + rotl32 tmp (md5S.getD i 0)), b, c)

/-- Process one 64-byte chunk. -/
def md5ProcessChunk (st : Nat × Nat × Nat × Nat) (chunk : List Nat) :
    Nat × Nat × Nat × Nat :=
  let M := fun i => leWord ((chunk.drop (4 * i)).take 4)
  let r := (List.range 64).foldl (md5Round M) st
  (mask32 (st.1 + r.1), mask32 (st.2.1 + r.2.1),
   mask32 (st.2.2.1 + r.2.2.1), mask32 (st.2.2.2 + r.2.2.2))

/-- Split a byte list into 64-byte chunks (structural recursion on a fuel
bound so the kernel can evaluate it; `fuel = l.length` always suffices
because every step consumes at least one element). -/
def chunksAux : Nat → List Nat → List (List Nat)
  | 0, _ => []
  | _, [] => []
  | fuel + 1, l => l.take 64 :: chunksAux fuel (l.drop 64)

/-- Split a byte list into 64-byte chunks. -/
def chunks64 (l : List Nat) : List (List Nat) :=
  chunksAux l.length l

def hexChar (n : Nat) : Char :=
  if n < 10 then Char.ofNat (48 + n) else Char.ofNat (87 + n)

def byteHex (b : Nat) : String :=
  String.mk [hexChar (b / 16 % 16), hexChar (b % 16)]

/-- Lowercase hex of a 32-bit word, least-significant byte first
(MD5 digest byte order). -/
def wordLEHex (w : Nat) : String :=
  byteHex (w % 256) ++ byteHex (w / 256 % 256) ++
  byteHex (w / 65536 % 256) ++ byteHex (w / 16777216 % 256)

/-- MD5 padding: `0x80`, zeros to 56 mod 64, then the bit length as eight
little-endian bytes. -/
def md5Pad (bytes : List Nat) : List Nat :=
  bytes ++ 128 :: List.replicate ((119 - bytes.length % 64) % 64) 0
        ++ leBytes 8 (bytes.length * 8)

/-- `hashlib.md5(bytes).hexdigest()`: the lowercase 32-character hex MD5
digest of a byte list. -/
def md5hex (bytes : List Nat) : String :=
  let r := (chunks64 (md5Pad bytes)).foldl md5ProcessChunk
      (0x67452301, 0xefcdab89, 0x98badcfe, 0x10325476)
  wordLEHex r.1 ++ wordLEHex r.2.1 ++ wordLEHex r.2.2.1 ++ wordLEHex r.2.2.2

set_option maxRecDepth 100000 in
example : md5hex [] = "d41d8cd9" ++ "8f00b204" ++ "e9800998" ++ "ecf8427e" := by decide

set_option maxRecDepth 100000 in
example : md5hex [97, 98, 99] = "90015098" ++ "3cd24fb0" ++ "d6963f7d" ++ "28e17f72" := by
  decide

/-! ## Data model

Mirrors the YAML manifest consumed by `run` (`traces.yml`): an optional
`traces-db.download-url` and a `traces` list of `path` plus
`expectations` entries of `device` and `checksum`. -/

/-- One `expectations` entry of a trace in the manifest. -/
structure Expectation where
  device : String
  checksum : String
deriving DecidableEq, Repr

/-- One `traces` entry in the manifest. -/
structure Trace where
  path : String
  expectations : List Expectation
deriving DecidableEq, Repr

/-- The parsed manifest: `downloadUrl` is `y["traces-db"]["download-url"]`
when the `traces-db` key is present, and `traces` is `y['traces'] or []`. -/
structure Manifest where
  downloadUrl : Option String
  traces : List Trace
deriving DecidableEq, Repr

/-- One record of the result report: `{expected, actual, image?}`,
keyed by the trace path in the report. -/
structure ResRecord where
  expected : String
  actual : String
  image : Option String
deriving DecidableEq, Repr

/-- The accumulated result report: trace path to record, in insertion
order, with Python-dict update semantics. -/
abbrev Results := List (String × ResRecord)

/-- The artifacts the external replay tool leaves behind for one
`(trace, device)` invocation when it succeeds: the raw pixel bytes of
the rendered image (what `Image.open(image_file).tobytes()` reads) and
the on-disk paths of the image and log files located by the glob
patterns `<name>-*.png` and `<name>.log`. -/
structure ReplayOut where
  imageBytes : List Nat
  imageFile : String
  logFile : String
deriving DecidableEq, Repr

/-- The external world `tracie.py` interacts with:
`replayOut` is the outcome of `dump_trace_images.dump_from_trace` plus
the produced artifacts (`none` = tool failure), keyed by trace path and
device name; `traceExists` is `os.path.exists` on the traces-db path;
`storeImages` / `uploadToMinio` are the raw values of the environment
variables `TRACIE_STORE_IMAGES` / `TRACIE_UPLOAD_TO_MINIO` (`none` =
unset, read with default `"0"`); `ciProjectPath` / `ciPipelineId` /
`ciJobId` are the CI identifier variables; `httpPutStatus` is the HTTP
status code the object store returns for a PUT of a given resource. -/
structure Env where
  replayOut : String → String → Option ReplayOut
  traceExists : String → Bool
  storeImages : Option String
  uploadToMinio : Option String
  ciProjectPath : String
  ciPipelineId : String
  ciJobId : String
  httpPutStatus : String → Nat

/-- Side effects of a run, recorded in order. -/
inductive Effect where
  | makeDirs (path : String)
  | download (url : String) (dest : String)
  | moveFile (src : String) (dest : String)
  | putArtifact (url : String) (file : String) (contentType : String)
  | writeYaml (path : String) (contents : Results)
deriving DecidableEq, Repr

/-- Abnormal termination: `sys.exit(1)` on a missing trace with no
download URL, or the `requests.HTTPError` raised by
`Response.raise_for_status()`. -/
inductive Fatal where
  | exitMissing (path : String)
  | httpError (status : Nat)
deriving DecidableEq, Repr

def TRACES_DB_PATH : String := "./traces-db/"
def RESULTS_PATH : String := "./results/"

/-! ## The embedded operations of `tracie.py` -/

/-- `replay(trace_path, device_name)`: delegate to the external tool; on
failure return `None` for all three components, on success return the
MD5 hex digest of the image bytes together with the located image and
log file paths. -/
def replay (env : Env) (trace_path device_name : String) :
    Option (String × String × String) :=
  match env.replayOut trace_path device_name with
  | none => none
  | some out => some (md5hex out.imageBytes, out.imageFile, out.logFile)

/-- `gitlab_ensure_trace(project_url, trace)`: with no download URL a
missing trace exits the process (`sys.exit(1)`); with a download URL the
parent directories are created and the file is downloaded only when
absent. Returns the filesystem effects. -/
def gitlab_ensure_trace (env : Env) (project_url : Option String)
    (trace : Trace) : Except Fatal (List Effect) :=
  let trace_path := TRACES_DB_PATH ++ trace.path
  match project_url with
  | none =>
    if env.traceExists trace_path then .ok []
    else .error (.exitMissing trace_path)
  | some url =>
    if env.traceExists trace_path then
      .ok [.makeDirs (dirname trace_path)]
    else
      .ok [.makeDirs (dirname trace_path),
           .download (url ++ trace.path) trace_path]

/-- The canonical resource path `upload_artifact` builds from the CI
identifiers and the artifact key. -/
def uploadResource (env : Env) (key : String) : String :=
  "/artifacts/" ++ env.ciProjectPath ++ "/" ++ env.ciPipelineId ++ "/" ++
    env.ciJobId ++ "/" ++ key

/-- The full object-store URL `upload_artifact` PUTs to. -/
def uploadUrl (env : Env) (key : String) : String :=
  "https://minio-packet.freedesktop.org" ++ uploadResource env key

/-- `upload_artifact(file_name, key, content_type)`: PUT the file to the
object store under the CI-scoped resource path; `raise_for_status()`
raises `HTTPError` exactly when the response status is a 4xx or 5xx
code (`400 ≤ status < 600`). -/
def upload_artifact (env : Env) (file_name key content_type : String) :
    Except Fatal (List Effect) :=
  let status := env.httpPutStatus (uploadUrl env key)
  if 400 ≤ status ∧ status < 600 then .error (.httpError status)
  else .ok [.putArtifact (uploadUrl env key) file_name content_type]

/-- `gitlab_check_trace(project_url, device_name, trace, expectation)`:
ensure the trace is present, replay it, compare the checksum and file
the artifacts. Returns `(ok, result, effects)` or propagates a fatal
error. -/
def gitlab_check_trace (env : Env) (project_url : Option String)
    (device_name : String) (trace : Trace) (expectation : Expectation) :
    Except Fatal (Bool × Results × List Effect) :=
  match gitlab_ensure_trace env project_url trace with
  | .error e => .error e
  | .ok effs0 =>
    let trace_path := TRACES_DB_PATH ++ trace.path
    match replay env trace_path device_name with
    | none =>
      .ok (false,
           [(trace.path,
             { expected := expectation.checksum, actual := "error",
               image := none })],
           effs0)
    | some (checksum, image_file, log_file) =>
      let ok : Bool := checksum == expectation.checksum
      let trace_dir := dirname trace.path
      let dir_in_results := joinPath (joinPath trace_dir "test") device_name
      let results_path := joinPath RESULTS_PATH dir_in_results
      let effs1 := effs0 ++
        [.makeDirs results_path,
         .moveFile log_file (joinPath results_path (basename log_file))]
      let up : Except Fatal (List Effect) :=
        if !ok && (env.uploadToMinio.getD "0" == "1") then
          upload_artifact env image_file ("traces/" ++ checksum ++ ".png")
            "image/png"
        else .ok []
      match up with
      | .error e => .error e
      | .ok effs2 =>
        let image_name := basename image_file
        let stored : Bool := !ok || (env.storeImages.getD "0" == "1")
        let effs3 := if stored then
            [.moveFile image_file (joinPath results_path image_name)]
          else []
        let image_field := if stored then
            some (joinPath dir_in_results image_name)
          else none
        .ok (ok,
             [(trace.path,
               { expected := expectation.checksum, actual := checksum,
                 image := image_field })],
             effs1 ++ effs2 ++ effs3)

/-- Python `dict.update` with a single-key right-hand side: replace the
value in place when the key is present, append otherwise. -/
def dictUpdate1 (m : Results) (kv : String × ResRecord) : Results :=
  if m.any (fun p => p.1 == kv.1) then
    m.map (fun p => if p.1 = kv.1 then kv else p)
  else m ++ [kv]

/-- `results.update(result)` for the (possibly multi-key) result dict
returned by `gitlab_check_trace`. -/
def dictUpdate (m : Results) (r : Results) : Results :=
  r.foldl dictUpdate1 m

/-- The loop state of `run`: `(all_ok, results, effects so far)`. -/
abbrev RunSt := Bool × Results × List Effect

/-- The inner loop of `run` over one trace's expectations: each
expectation whose `device` equals the requested device name is checked,
its verdict is ANDed into `all_ok` and its record merged into
`results`. -/
def runExpList (env : Env) (project_url : Option String)
    (device_name : String) (trace : Trace) (st : RunSt) :
    List Expectation → Except Fatal RunSt
  | [] => .ok st
  | e :: es =>
    if e.device == device_name then
      match gitlab_check_trace env project_url device_name trace e with
      | .error err => .error err
      | .ok (ok, result, effs) =>
        runExpList env project_url device_name trace
          (st.1 && ok, dictUpdate st.2.1 result, st.2.2 ++ effs) es
    else runExpList env project_url device_name trace st es

/-- The outer loop of `run` over the manifest's traces. -/
def runTraceList (env : Env) (project_url : Option String)
    (device_name : String) (st : RunSt) : List Trace → Except Fatal RunSt
  | [] => .ok st
  | t :: ts =>
    match runExpList env project_url device_name t st t.expectations with
    | .error err => .error err
    | .ok st' => runTraceList env project_url device_name st' ts

/-- `run(filename, device_name)` on an already-parsed manifest: iterate
all traces and matching expectations, then write `results.yml` into the
results directory and, when `TRACIE_UPLOAD_TO_MINIO` is `1`, upload it.
Returns `(all_ok, results, effects)`. -/
def run (env : Env) (manifest : Manifest) (device_name : String) :
    Except Fatal RunSt :=
  match runTraceList env manifest.downloadUrl device_name
      (true, [], []) manifest.traces with
  | .error err => .error err
  | .ok (all_ok, results, effs) =>
    let effs1 := effs ++
      [.makeDirs RESULTS_PATH,
       .writeYaml (joinPath RESULTS_PATH "results.yml") results]
    match
      (if env.uploadToMinio.getD "0" == "1" then
        upload_artifact env (joinPath RESULTS_PATH "results.yml")
          "traces/results.yml" "text/yaml"
      else .ok []) with
    | .error err => .error err
    | .ok effs2 => .ok (all_ok, results, effs1 ++ effs2)

/-- `__main__`: `sys.exit(0 if all_ok else 1)`. -/
def tracieMain (env : Env) (manifest : Manifest) (device_name : String) :
    Except Fatal Nat :=
  match run env manifest device_name with
  | .error err => .error err
  | .ok (all_ok, _, _) => .ok (if all_ok then 0 else 1)

/-! ## General lemmas about the embedding -/

/-- The per-pair verdict of `gitlab_check_trace`, `none` when the check
terminates the run. -/
def pairOk (env : Env) (purl : Option String) (d : String)
    (t : Trace) (e : Expectation) : Option Bool :=
  match gitlab_check_trace env purl d t e with
  | .error _ => none
  | .ok (ok, _, _) => some ok

/-- The `(trace, expectation)` pairs `run` evaluates for device `d`, in
evaluation order. -/
def evalPairs (d : String) (ts : List Trace) : List (Trace × Expectation) :=
  ts.flatMap fun t =>
    (t.expectations.filter (fun e => e.device == d)).map (fun e => (t, e))

/-- `List.all` over a `map` that pairs a fixed first component. -/
theorem all_map_pair {α β : Type} (L : List α) (t : β) (p : β × α → Bool) :
    (L.map (fun e => (t, e))).all p = L.all (fun e => p (t, e)) := by
  induction L with
  | nil => rfl
  | cons a l ih => simp [ih]

/-- A successful `gitlab_check_trace` always returns a single-key result
dict, keyed by the trace path, whose `expected` field is the manifest
checksum. -/
theorem check_shape (env : Env) (purl : Option String) (d : String)
    (t : Trace) (e : Expectation) (ok : Bool) (res : Results)
    (effs : List Effect)
    (h : gitlab_check_trace env purl d t e = .ok (ok, res, effs)) :
    ∃ rec : ResRecord, res = [(t.path, rec)] ∧ rec.expected = e.checksum := by
  unfold gitlab_check_trace at h
  cases hens : gitlab_ensure_trace env purl t with
  | error e' => rw [hens] at h; exact Except.noConfusion h
  | ok effs0 =>
    rw [hens] at h
    simp only [] at h
    cases hrep : replay env (TRACES_DB_PATH ++ t.path) d with
    | none =>
      rw [hrep] at h
      simp only [Except.ok.injEq, Prod.mk.injEq] at h
      exact ⟨_, h.2.1.symm, rfl⟩
    | some v =>
      obtain ⟨cs, imgf, logf⟩ := v
      rw [hrep] at h
      simp only [] at h
      split at h
      · exact Except.noConfusion h
      · simp only [Except.ok.injEq, Prod.mk.injEq] at h
        exact ⟨_, h.2.1.symm, rfl⟩

/-- `all_ok` after the inner expectation loop: the incoming flag ANDed
with the verdict of every matching expectation. -/
theorem runExpList_all_ok (env : Env) (purl : Option String) (d : String)
    (t : Trace) :
    ∀ (es : List Expectation) (st st' : RunSt),
      runExpList env purl d t st es = .ok st' →
      st'.1 = (st.1 &&
        ((es.filter (fun e => e.device == d)).all
          (fun e => pairOk env purl d t e == some true))) := by
  intro es
  induction es with
  | nil =>
    intro st st' h
    simp only [runExpList, Except.ok.injEq] at h
    simp [← h]
  | cons e es ih =>
    intro st st' h
    simp only [runExpList] at h
    by_cases hd : (e.device == d) = true
    · rw [if_pos hd] at h
      cases hchk : gitlab_check_trace env purl d t e with
      | error err => rw [hchk] at h; exact Except.noConfusion h
      | ok v =>
        obtain ⟨ok1, r1, f1⟩ := v
        rw [hchk] at h
        have := ih _ _ h
        simp only [List.filter_cons, hd, if_pos, List.all_cons, pairOk, hchk] at *
        simp only [this, Option.some.injEq]
        cases st.1 <;> cases ok1 <;> simp
    · rw [if_neg hd] at h
      have := ih _ _ h
      simp only [List.filter_cons, hd] at *
      simpa using this

/-- Every matching expectation of a loop that returned normally was
checked without a fatal error. -/
theorem runExpList_ok_checks (env : Env) (purl : Option String) (d : String)
    (t : Trace) :
    ∀ (es : List Expectation) (st st' : RunSt),
      runExpList env purl d t st es = .ok st' →
      ∀ e ∈ es, (e.device == d) = true →
        pairOk env purl d t e ≠ none := by
  intro es
  induction es with
  | nil => intro st st' _ e he; exact absurd he (List.not_mem_nil e)
  | cons e es ih =>
    intro st st' h e' he' hd'
    simp only [runExpList] at h
    rcases List.mem_cons.mp he' with rfl | hmem
    · rw [if_pos hd'] at h
      cases hchk : gitlab_check_trace env purl d t e' with
      | error err => rw [hchk] at h; exact Except.noConfusion h
      | ok v => simp [pairOk, hchk]
    · by_cases hd : (e.device == d) = true
      · rw [if_pos hd] at h
        cases hchk : gitlab_check_trace env purl d t e with
        | error err => rw [hchk] at h; exact Except.noConfusion h
        | ok v =>
          obtain ⟨ok1, r1, f1⟩ := v
          rw [hchk] at h
          exact ih _ _ h e' hmem hd'
      · rw [if_neg hd] at h
        exact ih _ _ h e' hmem hd'

/-- `all_ok` after the outer trace loop: the incoming flag ANDed with
the verdict of every evaluated `(trace, expectation)` pair. -/
theorem runTraceList_all_ok (env : Env) (purl : Option String) (d : String) :
    ∀ (ts : List Trace) (st st' : RunSt),
      runTraceList env purl d st ts = .ok st' →
      st'.1 = (st.1 &&
        ((evalPairs d ts).all
          (fun p => pairOk env purl d p.1 p.2 == some true))) := by
  intro ts
  induction ts with
  | nil =>
    intro st st' h
    simp only [runTraceList, Except.ok.injEq] at h
    simp [← h, evalPairs]
  | cons t ts ih =>
    intro st st' h
    simp only [runTraceList] at h
    cases hexp : runExpList env purl d t st t.expectations with
    | error err => rw [hexp] at h; exact Except.noConfusion h
    | ok st1 =>
      rw [hexp] at h
      have h1 := runExpList_all_ok env purl d t t.expectations st st1 hexp
      have h2 := ih _ _ h
      rw [h2, h1]
      simp only [evalPairs, List.flatMap_cons, List.all_append, all_map_pair,
        Bool.and_assoc]

/-- Every pair evaluated by a normally-returning trace loop was checked
without a fatal error. -/
theorem runTraceList_ok_checks (env : Env) (purl : Option String)
    (d : String) :
    ∀ (ts : List Trace) (st st' : RunSt),
      runTraceList env purl d st ts = .ok st' →
      ∀ t ∈ ts, ∀ e ∈ t.expectations, (e.device == d) = true →
        pairOk env purl d t e ≠ none := by
  intro ts
  induction ts with
  | nil => intro st st' _ t ht; exact absurd ht (List.not_mem_nil t)
  | cons t ts ih =>
    intro st st' h t' ht' e he hd
    simp only [runTraceList] at h
    cases hexp : runExpList env purl d t st t.expectations with
    | error err => rw [hexp] at h; exact Except.noConfusion h
    | ok st1 =>
      rw [hexp] at h
      rcases List.mem_cons.mp ht' with rfl | hmem
      · exact runExpList_ok_checks env purl d t' t'.expectations st st1 hexp
          e he hd
      · exact ih _ _ h t' hmem e he hd

/-- Unfolding `gitlab_check_trace` when the trace is present and the
replay fails: the record gets `actual = "error"`, the manifest checksum
stays in `expected`, nothing is filed, and the check returns normally. -/
theorem check_err_unfold (env : Env) (purl : Option String) (d : String)
    (t : Trace) (e : Expectation) (effs0 : List Effect)
    (hens : gitlab_ensure_trace env purl t = .ok effs0)
    (hrep : env.replayOut (TRACES_DB_PATH ++ t.path) d = none) :
    gitlab_check_trace env purl d t e =
      .ok (false,
        [(t.path, ⟨e.checksum, "error", none⟩)], effs0) := by
  unfold gitlab_check_trace
  rw [hens]
  simp only [replay, hrep]

/-- Unfolding `gitlab_check_trace` when the replay succeeds: the
verdict, record and effects in terms of the replay artifacts. -/
theorem check_ok_unfold (env : Env) (purl : Option String) (d : String)
    (t : Trace) (e : Expectation) (out : ReplayOut) (effs0 : List Effect)
    (hens : gitlab_ensure_trace env purl t = .ok effs0)
    (hrep : env.replayOut (TRACES_DB_PATH ++ t.path) d = some out) :
    gitlab_check_trace env purl d t e =
      (let checksum := md5hex out.imageBytes
       let ok : Bool := checksum == e.checksum
       let dir_in_results := joinPath (joinPath (dirname t.path) "test") d
       let results_path := joinPath RESULTS_PATH dir_in_results
       let up : Except Fatal (List Effect) :=
         if !ok && (env.uploadToMinio.getD "0" == "1") then
           upload_artifact env out.imageFile
             ("traces/" ++ checksum ++ ".png") "image/png"
         else .ok []
       match up with
       | .error err => .error err
       | .ok effs2 =>
         let stored : Bool := !ok || (env.storeImages.getD "0" == "1")
         .ok (ok,
           [(t.path,
             ⟨e.checksum, checksum,
              if stored then
                some (joinPath dir_in_results (basename out.imageFile))
              else none⟩)],
           (effs0 ++
             [.makeDirs results_path,
              .moveFile out.logFile
                (joinPath results_path (basename out.logFile))]) ++
           effs2 ++
           (if stored then
             [.moveFile out.imageFile
               (joinPath results_path (basename out.imageFile))]
            else []))) := by
  unfold gitlab_check_trace
  rw [hens]
  simp only [replay, hrep]

/-- `gitlab_ensure_trace` performs no file moves. -/
theorem ensure_no_move (env : Env) (purl : Option String) (t : Trace)
    (effs0 : List Effect)
    (h : gitlab_ensure_trace env purl t = .ok effs0) :
    ∀ src dst, Effect.moveFile src dst ∉ effs0 := by
  intro src dst
  cases purl with
  | none =>
    unfold gitlab_ensure_trace at h
    simp only [] at h
    split at h
    · simp only [Except.ok.injEq] at h
      simp [← h]
    · exact Except.noConfusion h
  | some url =>
    unfold gitlab_ensure_trace at h
    simp only [] at h
    split at h <;>
      (simp only [Except.ok.injEq] at h; simp [← h])

/-- A successful `upload_artifact` performs exactly one PUT and no file
moves. -/
theorem upload_ok_effects (env : Env) (f k c : String)
    (effs : List Effect) (h : upload_artifact env f k c = .ok effs) :
    effs = [.putArtifact (uploadUrl env k) f c] := by
  unfold upload_artifact at h
  simp only [] at h
  split at h
  · exact Except.noConfusion h
  · simp only [Except.ok.injEq] at h
    exact h.symm

/-- A normally-returning `run` is the trace loop followed by the
results-file write and optional upload: extract the loop's outcome. -/
theorem run_ok_elim (env : Env) (m : Manifest) (d : String) (allOk : Bool)
    (res : Results) (effs : List Effect)
    (h : run env m d = .ok (allOk, res, effs)) :
    ∃ effs0, runTraceList env m.downloadUrl d (true, [], []) m.traces =
      .ok (allOk, res, effs0) := by
  unfold run at h
  cases hrt : runTraceList env m.downloadUrl d (true, [], []) m.traces with
  | error err => rw [hrt] at h; exact Except.noConfusion h
  | ok st =>
    obtain ⟨b, r, f⟩ := st
    rw [hrt] at h
    simp only [] at h
    split at h
    · exact Except.noConfusion h
    · simp only [Except.ok.injEq, Prod.mk.injEq] at h
      exact ⟨f, by rw [← h.1, ← h.2.1]⟩

/-- A trace none of whose expectations match the requested device is
passed over without any evaluation: the loop state is untouched. -/
theorem runExpList_skip (env : Env) (purl : Option String) (d : String)
    (t : Trace) :
    ∀ (es : List Expectation) (st : RunSt),
      (∀ e ∈ es, (e.device == d) = false) →
      runExpList env purl d t st es = .ok st := by
  intro es
  induction es with
  | nil => intro st _; rfl
  | cons e es ih =>
    intro st hsk
    simp only [runExpList, hsk e (List.mem_cons_self e es), Bool.false_eq_true,
      if_false]
    exact ih st (fun e' he' => hsk e' (List.mem_cons_of_mem e he'))

/-- The outer loop splits over list append. -/
theorem runTraceList_append (env : Env) (purl : Option String) (d : String) :
    ∀ (ts1 ts2 : List Trace) (st : RunSt),
      runTraceList env purl d st (ts1 ++ ts2) =
        (match runTraceList env purl d st ts1 with
         | .error err => .error err
         | .ok st' => runTraceList env purl d st' ts2) := by
  intro ts1
  induction ts1 with
  | nil => intro ts2 st; rfl
  | cons t ts1 ih =>
    intro ts2 st
    simp only [List.cons_append, runTraceList]
    cases runExpList env purl d t st t.expectations with
    | error err => rfl
    | ok st1 => exact ih ts2 st1

/-- Lookup in the result report (YAML mapping semantics). -/
def lookupRes (k : String) : Results → Option ResRecord
  | [] => none
  | (k', v) :: rest => if k' = k then some v else lookupRes k rest

/-- Replacing the binding of a different key leaves a lookup unchanged
(the in-place branch of `dict.update`). -/
theorem lookup_map_replace (k : String) (kv : String × ResRecord)
    (hk : kv.1 ≠ k) :
    ∀ m : Results,
      lookupRes k (m.map (fun p => if p.1 = kv.1 then kv else p)) =
        lookupRes k m := by
  intro m
  induction m with
  | nil => rfl
  | cons p m ih =>
    by_cases hp : p.1 = kv.1
    · rw [List.map_cons, if_pos hp]
      simp only [lookupRes]
      rw [if_neg hk, if_neg (hp ▸ hk), ih]
    · rw [List.map_cons, if_neg hp]
      simp only [lookupRes]
      rw [ih]

/-- Appending a binding for a different key leaves a lookup unchanged
(the append branch of `dict.update`). -/
theorem lookup_append_single (k : String) (kv : String × ResRecord)
    (hk : kv.1 ≠ k) :
    ∀ m : Results, lookupRes k (m ++ [kv]) = lookupRes k m := by
  intro m
  induction m with
  | nil => simp [lookupRes, hk]
  | cons p m ih =>
    obtain ⟨k', v⟩ := p
    simp only [List.cons_append, lookupRes, List.append_eq]
    rw [ih]

/-- `dict.update` with a single different key leaves a lookup
unchanged. -/
theorem dictUpdate1_lookup_ne (k : String) (kv : String × ResRecord)
    (hk : kv.1 ≠ k) (m : Results) :
    lookupRes k (dictUpdate1 m kv) = lookupRes k m := by
  unfold dictUpdate1
  split
  · exact lookup_map_replace k kv hk m
  · exact lookup_append_single k kv hk m

/-- The inner loop never creates report keys other than its trace's
path. -/
theorem runExpList_lookup_frozen (env : Env) (purl : Option String)
    (d : String) (t : Trace) (k : String) (hk : t.path ≠ k) :
    ∀ (es : List Expectation) (st st' : RunSt),
      runExpList env purl d t st es = .ok st' →
      lookupRes k st'.2.1 = lookupRes k st.2.1 := by
  intro es
  induction es with
  | nil =>
    intro st st' h
    simp only [runExpList, Except.ok.injEq] at h
    rw [← h]
  | cons e es ih =>
    intro st st' h
    simp only [runExpList] at h
    by_cases hd : (e.device == d) = true
    · rw [if_pos hd] at h
      cases hchk : gitlab_check_trace env purl d t e with
      | error err => rw [hchk] at h; exact Except.noConfusion h
      | ok v =>
        obtain ⟨ok1, r1, f1⟩ := v
        rw [hchk] at h
        have hr := check_shape env purl d t e ok1 r1 f1 hchk
        obtain ⟨rec, hrec, -⟩ := hr
        have := ih _ _ h
        rw [this]
        simp only [hrec, dictUpdate, List.foldl_cons, List.foldl_nil]
        exact dictUpdate1_lookup_ne k (t.path, rec) hk st.2.1
    · rw [if_neg hd] at h
      exact ih _ _ h

/-- The outer loop never creates report keys outside the evaluated
traces' paths. -/
theorem runTraceList_lookup_frozen (env : Env) (purl : Option String)
    (d : String) (k : String) :
    ∀ (ts : List Trace) (st st' : RunSt),
      runTraceList env purl d st ts = .ok st' →
      k ∉ ts.map Trace.path →
      lookupRes k st'.2.1 = lookupRes k st.2.1 := by
  intro ts
  induction ts with
  | nil =>
    intro st st' h _
    simp only [runTraceList, Except.ok.injEq] at h
    rw [← h]
  | cons t ts ih =>
    intro st st' h hk
    simp only [List.map_cons, List.mem_cons, not_or] at hk
    simp only [runTraceList] at h
    cases hexp : runExpList env purl d t st t.expectations with
    | error err => rw [hexp] at h; exact Except.noConfusion h
    | ok st1 =>
      rw [hexp] at h
      rw [ih _ _ h (by simpa using hk.2)]
      exact runExpList_lookup_frozen env purl d t k
        (fun hKeq => hk.1 hKeq.symm) t.expectations st st1 hexp

/-! ## Concrete fixtures (used by witnesses and counterexamples) -/

/-- Raw pixel bytes of a tiny rendered image. -/
def pixBytes : List Nat := [255, 0, 255, 255]

/-- A world where every replay succeeds and produces the fixture image. -/
def cenvOk : Env where
  replayOut := fun _ _ =>
    some ⟨pixBytes, "t/test/dev/a.trace-0.png", "t/test/dev/a.trace.log"⟩
  traceExists := fun _ => true
  storeImages := none
  uploadToMinio := none
  ciProjectPath := "proj"
  ciPipelineId := "7"
  ciJobId := "42"
  httpPutStatus := fun _ => 200

/-- A world where every replay fails (the external tool reports failure). -/
def cenvErr : Env where
  replayOut := fun _ _ => none
  traceExists := fun _ => true
  storeImages := none
  uploadToMinio := none
  ciProjectPath := "proj"
  ciPipelineId := "7"
  ciJobId := "42"
  httpPutStatus := fun _ => 200

/-- A world where the trace-store has no files at all. -/
def cenvMissing : Env := { cenvErr with traceExists := fun _ => false }

/-- A fixture trace whose single expectation targets device `dev`. -/
def ctrace : Trace := ⟨"t1/a.trace", [⟨"dev", md5hex pixBytes⟩]⟩

/-- A fixture trace whose only expectation targets a different device. -/
def tOther : Trace := ⟨"t2/b.trace", [⟨"other", "0123"⟩]⟩

set_option maxRecDepth 1000000 in
example :
    run cenvOk ⟨none, [ctrace]⟩ "dev" =
      .ok (true,
        [("t1/a.trace", ⟨md5hex pixBytes, md5hex pixBytes, none⟩)],
        [.makeDirs "./results/t1/test/dev",
         .moveFile "t/test/dev/a.trace.log" "./results/t1/test/dev/a.trace.log",
         .makeDirs "./results/",
         .writeYaml "./results/results.yml"
           [("t1/a.trace", ⟨md5hex pixBytes, md5hex pixBytes, none⟩)]]) := by
  rfl

/-! ## The claims -/

/-- C1: for every manifest and device name, `run` returns true exactly
when every evaluated (trace, expectation) pair for that device passed —
the logical AND across all evaluated records — and the process exit
status is 0 when it returns true and 1 otherwise. -/
theorem c1_run_and_exit_status (env : Env) (m : Manifest) (d : String)
    (allOk : Bool) (res : Results) (effs : List Effect)
    (h : run env m d = .ok (allOk, res, effs)) :
    allOk = ((evalPairs d m.traces).all
      (fun p => pairOk env m.downloadUrl d p.1 p.2 == some true))
    ∧ tracieMain env m d = .ok (if allOk then 0 else 1)
    ∧ (tracieMain env m d = .ok 0 ↔ allOk = true) := by
  obtain ⟨effs0, hrt⟩ := run_ok_elim env m d allOk res effs h
  have h1 := runTraceList_all_ok env m.downloadUrl d m.traces _ _ hrt
  refine ⟨by simpa using h1, ?_, ?_⟩
  · unfold tracieMain
    rw [h]
  · unfold tracieMain
    rw [h]
    cases allOk <;> simp

set_option maxRecDepth 1000000 in
/-- Witness for C1: a one-trace manifest whose replay matches. -/
theorem c1_witness :
    run cenvOk ⟨none, [ctrace]⟩ "dev" =
      .ok (true,
        [("t1/a.trace", ⟨md5hex pixBytes, md5hex pixBytes, none⟩)],
        [.makeDirs "./results/t1/test/dev",
         .moveFile "t/test/dev/a.trace.log" "./results/t1/test/dev/a.trace.log",
         .makeDirs "./results/",
         .writeYaml "./results/results.yml"
           [("t1/a.trace", ⟨md5hex pixBytes, md5hex pixBytes, none⟩)]])
    ∧ (true = ((evalPairs "dev" (Manifest.mk none [ctrace]).traces).all
        (fun p => pairOk cenvOk (Manifest.mk none [ctrace]).downloadUrl "dev"
          p.1 p.2 == some true))
      ∧ tracieMain cenvOk ⟨none, [ctrace]⟩ "dev" = .ok (if true then 0 else 1)
      ∧ (tracieMain cenvOk ⟨none, [ctrace]⟩ "dev" = .ok 0 ↔ true = true)) :=
  ⟨rfl,
   c1_run_and_exit_status cenvOk ⟨none, [ctrace]⟩ "dev" true
     [("t1/a.trace", ⟨md5hex pixBytes, md5hex pixBytes, none⟩)]
     [.makeDirs "./results/t1/test/dev",
      .moveFile "t/test/dev/a.trace.log" "./results/t1/test/dev/a.trace.log",
      .makeDirs "./results/",
      .writeYaml "./results/results.yml"
        [("t1/a.trace", ⟨md5hex pixBytes, md5hex pixBytes, none⟩)]]
     rfl⟩

/-- C2: a trace whose replay fails is recorded with `actual = "error"`
while `expected` keeps the manifest checksum unchanged, the check
returns normally instead of aborting the run, and the overall result is
failing. -/
theorem c2_replay_error_recorded (env : Env) (m : Manifest) (d : String)
    (t : Trace) (e : Expectation) (allOk : Bool) (res : Results)
    (effs : List Effect)
    (ht : t ∈ m.traces) (he : e ∈ t.expectations) (hd : e.device = d)
    (hrep : env.replayOut (TRACES_DB_PATH ++ t.path) d = none)
    (h : run env m d = .ok (allOk, res, effs)) :
    (∃ effs0, gitlab_check_trace env m.downloadUrl d t e =
      .ok (false, [(t.path, ⟨e.checksum, "error", none⟩)], effs0))
    ∧ allOk = false := by
  obtain ⟨effsL, hrt⟩ := run_ok_elim env m d allOk res effs h
  have hdb : (e.device == d) = true := by simpa using hd
  have hnn := runTraceList_ok_checks env m.downloadUrl d m.traces _ _ hrt
    t ht e he hdb
  have hensEx : ∃ effs0, gitlab_ensure_trace env m.downloadUrl t =
      .ok effs0 := by
    cases hE : gitlab_ensure_trace env m.downloadUrl t with
    | error err =>
      exfalso
      apply hnn
      unfold pairOk gitlab_check_trace
      rw [hE]
    | ok effs0 => exact ⟨effs0, rfl⟩
  obtain ⟨effs0, hE⟩ := hensEx
  have hchk := check_err_unfold env m.downloadUrl d t e effs0 hE hrep
  refine ⟨⟨effs0, hchk⟩, ?_⟩
  have h1 := runTraceList_all_ok env m.downloadUrl d m.traces _ _ hrt
  simp only [Bool.true_and] at h1
  have hmem : (t, e) ∈ evalPairs d m.traces := by
    unfold evalPairs
    refine List.mem_flatMap.mpr ⟨t, ht, ?_⟩
    exact List.mem_map.mpr ⟨e, List.mem_filter.mpr ⟨he, hdb⟩, rfl⟩
  have hpo : pairOk env m.downloadUrl d t e = some false := by
    unfold pairOk
    rw [hchk]
  cases hA : allOk with
  | false => rfl
  | true =>
    exfalso
    rw [hA] at h1
    have hx := List.all_eq_true.mp h1.symm (t, e) hmem
    rw [hpo] at hx
    exact absurd hx (by decide)

/-- Witness for C2: a one-trace manifest whose replay fails. -/
theorem c2_witness :
    (ctrace ∈ (Manifest.mk none [ctrace]).traces
     ∧ (⟨"dev", md5hex pixBytes⟩ : Expectation) ∈ ctrace.expectations
     ∧ (Expectation.device ⟨"dev", md5hex pixBytes⟩) = "dev"
     ∧ cenvErr.replayOut (TRACES_DB_PATH ++ ctrace.path) "dev" = none
     ∧ run cenvErr ⟨none, [ctrace]⟩ "dev" =
        .ok (false,
          [("t1/a.trace", ⟨md5hex pixBytes, "error", none⟩)],
          [.makeDirs "./results/",
           .writeYaml "./results/results.yml"
             [("t1/a.trace", ⟨md5hex pixBytes, "error", none⟩)]]))
    ∧ ((∃ effs0, gitlab_check_trace cenvErr
          (Manifest.mk none [ctrace]).downloadUrl "dev" ctrace
          ⟨"dev", md5hex pixBytes⟩ =
        .ok (false,
          [(ctrace.path, ⟨Expectation.checksum ⟨"dev", md5hex pixBytes⟩,
            "error", none⟩)], effs0))
      ∧ false = false) :=
  ⟨⟨List.mem_singleton.mpr rfl, List.mem_singleton.mpr rfl, rfl, rfl, rfl⟩,
   c2_replay_error_recorded cenvErr ⟨none, [ctrace]⟩ "dev" ctrace
     ⟨"dev", md5hex pixBytes⟩ false
     [("t1/a.trace", ⟨md5hex pixBytes, "error", none⟩)]
     [.makeDirs "./results/",
      .writeYaml "./results/results.yml"
        [("t1/a.trace", ⟨md5hex pixBytes, "error", none⟩)]]
     (List.mem_singleton.mpr rfl) (List.mem_singleton.mpr rfl) rfl rfl rfl⟩

/-- C6: ensuring a trace exists locally: with a configured download URL
the file is fetched to the local trace-store path (parent directories
created) only when absent — a download effect implies the file was
absent, so an already-present file is never re-downloaded — and with no
download URL a missing file terminates the process fatally. -/
theorem c6_ensure_trace (env : Env) (t : Trace) (url : String) :
    (env.traceExists (TRACES_DB_PATH ++ t.path) = true →
      gitlab_ensure_trace env (some url) t =
        .ok [.makeDirs (dirname (TRACES_DB_PATH ++ t.path))])
    ∧ (env.traceExists (TRACES_DB_PATH ++ t.path) = false →
      gitlab_ensure_trace env (some url) t =
        .ok [.makeDirs (dirname (TRACES_DB_PATH ++ t.path)),
             .download (url ++ t.path) (TRACES_DB_PATH ++ t.path)])
    ∧ (∀ u' p' effs, gitlab_ensure_trace env (some url) t = .ok effs →
        Effect.download u' p' ∈ effs →
        env.traceExists (TRACES_DB_PATH ++ t.path) = false)
    ∧ (env.traceExists (TRACES_DB_PATH ++ t.path) = false →
      gitlab_ensure_trace env none t =
        .error (.exitMissing (TRACES_DB_PATH ++ t.path))) := by
  refine ⟨?_, ?_, ?_, ?_⟩
  · intro hex
    unfold gitlab_ensure_trace
    simp [hex]
  · intro hex
    unfold gitlab_ensure_trace
    simp [hex]
  · intro u' p' effs hok hmem
    cases hex : env.traceExists (TRACES_DB_PATH ++ t.path)
    · rfl
    · exfalso
      unfold gitlab_ensure_trace at hok
      simp only [hex, if_true] at hok
      simp only [Except.ok.injEq] at hok
      rw [← hok] at hmem
      simp at hmem
  · intro hex
    unfold gitlab_ensure_trace
    simp [hex]

/-- Witness for C6: present and absent trace files, with and without a
download URL. -/
theorem c6_witness :
    (cenvOk.traceExists (TRACES_DB_PATH ++ ctrace.path) = true
      ∧ gitlab_ensure_trace cenvOk (some "https://host/") ctrace =
          .ok [.makeDirs (dirname (TRACES_DB_PATH ++ ctrace.path))])
    ∧ (cenvMissing.traceExists (TRACES_DB_PATH ++ ctrace.path) = false
      ∧ gitlab_ensure_trace cenvMissing (some "https://host/") ctrace =
          .ok [.makeDirs (dirname (TRACES_DB_PATH ++ ctrace.path)),
               .download ("https://host/" ++ ctrace.path)
                 (TRACES_DB_PATH ++ ctrace.path)]
      ∧ gitlab_ensure_trace cenvMissing none ctrace =
          .error (.exitMissing (TRACES_DB_PATH ++ ctrace.path))) :=
  ⟨⟨rfl, (c6_ensure_trace cenvOk ctrace "https://host/").1 rfl⟩,
   ⟨rfl, (c6_ensure_trace cenvMissing ctrace "https://host/").2.1 rfl,
    (c6_ensure_trace cenvMissing ctrace "https://host/").2.2.2 rfl⟩⟩

/-- C7: a trace whose expectations all target other devices is never
evaluated: deleting it from the manifest leaves the whole run outcome
(verdict, report and effects) unchanged, and when no other trace shares
its path, the path is absent from the result report. -/
theorem c7_other_device_skipped (env : Env) (u : Option String)
    (d : String) (pre post : List Trace) (t : Trace)
    (hskip : ∀ e ∈ t.expectations, e.device ≠ d) :
    run env ⟨u, pre ++ t :: post⟩ d = run env ⟨u, pre ++ post⟩ d
    ∧ (t.path ∉ (pre ++ post).map Trace.path →
      ∀ allOk res effs,
        run env ⟨u, pre ++ t :: post⟩ d = .ok (allOk, res, effs) →
        lookupRes t.path res = none) := by
  have hskipb : ∀ e ∈ t.expectations, (e.device == d) = false := by
    intro e he
    simpa using hskip e he
  have key : runTraceList env u d (true, [], []) (pre ++ t :: post) =
      runTraceList env u d (true, [], []) (pre ++ post) := by
    rw [runTraceList_append, runTraceList_append]
    cases hpre : runTraceList env u d (true, [], []) pre with
    | error err => rfl
    | ok st' =>
      simp only []
      show runTraceList env u d st' (t :: post) =
        runTraceList env u d st' post
      simp only [runTraceList,
        runExpList_skip env u d t t.expectations st' hskipb]
  have hEq : run env ⟨u, pre ++ t :: post⟩ d = run env ⟨u, pre ++ post⟩ d := by
    unfold run
    rw [key]
  refine ⟨hEq, ?_⟩
  intro hnot allOk res effs hrun
  rw [hEq] at hrun
  obtain ⟨effs0, hrt⟩ := run_ok_elim env ⟨u, pre ++ post⟩ d allOk res effs hrun
  have := runTraceList_lookup_frozen env u d t.path (pre ++ post)
    (true, [], []) (allOk, res, effs0) hrt hnot
  simpa [lookupRes] using this

set_option maxRecDepth 1000000 in
/-- Witness for C7: a manifest with one matching trace and one trace
targeting a different device. -/
theorem c7_witness :
    ((∀ e ∈ tOther.expectations, Expectation.device e ≠ "dev")
     ∧ Trace.path tOther ∉ ([ctrace] : List Trace).map Trace.path
     ∧ run cenvOk ⟨none, [] ++ tOther :: [ctrace]⟩ "dev" =
        .ok (true,
          [("t1/a.trace", ⟨md5hex pixBytes, md5hex pixBytes, none⟩)],
          [.makeDirs "./results/t1/test/dev",
           .moveFile "t/test/dev/a.trace.log"
             "./results/t1/test/dev/a.trace.log",
           .makeDirs "./results/",
           .writeYaml "./results/results.yml"
             [("t1/a.trace", ⟨md5hex pixBytes, md5hex pixBytes, none⟩)]]))
    ∧ (run cenvOk ⟨none, [] ++ tOther :: [ctrace]⟩ "dev" =
        run cenvOk ⟨none, [] ++ [ctrace]⟩ "dev"
      ∧ lookupRes (Trace.path tOther)
          [("t1/a.trace", ⟨md5hex pixBytes, md5hex pixBytes, none⟩)] = none) :=
  ⟨⟨by decide, by decide, rfl⟩,
   (c7_other_device_skipped cenvOk none "dev" [] [ctrace] tOther
      (by decide)).1,
   (c7_other_device_skipped cenvOk none "dev" [] [ctrace] tOther
      (by decide)).2 (by decide) true
      [("t1/a.trace", ⟨md5hex pixBytes, md5hex pixBytes, none⟩)]
      [.makeDirs "./results/t1/test/dev",
       .moveFile "t/test/dev/a.trace.log" "./results/t1/test/dev/a.trace.log",
       .makeDirs "./results/",
       .writeYaml "./results/results.yml"
         [("t1/a.trace", ⟨md5hex pixBytes, md5hex pixBytes, none⟩)]]
      rfl⟩

/-- The verdict of a successful check with a successful replay is the
string comparison of the computed digest against the manifest
checksum. -/
theorem check_ok_value (env : Env) (purl : Option String) (d : String)
    (t : Trace) (e : Expectation) (out : ReplayOut) (ok : Bool)
    (res : Results) (effs : List Effect)
    (hrep : env.replayOut (TRACES_DB_PATH ++ t.path) d = some out)
    (h : gitlab_check_trace env purl d t e = .ok (ok, res, effs)) :
    ok = (md5hex out.imageBytes == e.checksum) := by
  cases hE : gitlab_ensure_trace env purl t with
  | error err =>
    unfold gitlab_check_trace at h
    rw [hE] at h
    exact Except.noConfusion h
  | ok effs0 =>
    rw [check_ok_unfold env purl d t e out effs0 hE hrep] at h
    simp only [] at h
    split at h
    · exact Except.noConfusion h
    · simp only [Except.ok.injEq, Prod.mk.injEq] at h
      exact h.1.symm

/-- C9: the checksum comparison is deterministic — identical raw pixel
bytes hash to the same digest string — and the pass/fail verdict is
exact string equality between the computed hash and the manifest's
recorded checksum. -/
theorem c9_checksum_deterministic (env1 env2 : Env) (tp1 tp2 d1 d2 : String)
    (o1 o2 : ReplayOut)
    (h1 : env1.replayOut tp1 d1 = some o1)
    (h2 : env2.replayOut tp2 d2 = some o2)
    (hb : o1.imageBytes = o2.imageBytes) :
    (replay env1 tp1 d1 = some (md5hex o1.imageBytes, o1.imageFile, o1.logFile)
     ∧ replay env2 tp2 d2 = some (md5hex o2.imageBytes, o2.imageFile, o2.logFile)
     ∧ md5hex o1.imageBytes = md5hex o2.imageBytes)
    ∧ (∀ (purl : Option String) (d : String) (t : Trace) (e : Expectation)
        (ok : Bool) (res : Results) (effs : List Effect),
        env1.replayOut (TRACES_DB_PATH ++ t.path) d = some o1 →
        gitlab_check_trace env1 purl d t e = .ok (ok, res, effs) →
        (ok = true ↔ md5hex o1.imageBytes = e.checksum)) := by
  refine ⟨⟨?_, ?_, by rw [hb]⟩, ?_⟩
  · unfold replay
    rw [h1]
  · unfold replay
    rw [h2]
  · intro purl d t e ok res effs hrep h
    rw [check_ok_value env1 purl d t e o1 ok res effs hrep h]
    constructor
    · intro hx
      simpa using hx
    · intro hx
      simp [hx]

set_option maxRecDepth 1000000 in
/-- Witness for C9 at the fixture world. -/
theorem c9_witness :
    (cenvOk.replayOut "x" "dev" =
       some ⟨pixBytes, "t/test/dev/a.trace-0.png", "t/test/dev/a.trace.log"⟩
     ∧ cenvOk.replayOut (TRACES_DB_PATH ++ ctrace.path) "dev" =
       some ⟨pixBytes, "t/test/dev/a.trace-0.png", "t/test/dev/a.trace.log"⟩
     ∧ gitlab_check_trace cenvOk none "dev" ctrace ⟨"dev", md5hex pixBytes⟩ =
        .ok (true,
          [("t1/a.trace", ⟨md5hex pixBytes, md5hex pixBytes, none⟩)],
          [.makeDirs "./results/t1/test/dev",
           .moveFile "t/test/dev/a.trace.log"
             "./results/t1/test/dev/a.trace.log"]))
    ∧ (true = true ↔ md5hex pixBytes =
        Expectation.checksum ⟨"dev", md5hex pixBytes⟩) :=
  ⟨⟨rfl, rfl, rfl⟩,
   (c9_checksum_deterministic cenvOk cenvOk "x" "y" "dev" "dev"
      ⟨pixBytes, "t/test/dev/a.trace-0.png", "t/test/dev/a.trace.log"⟩
      ⟨pixBytes, "t/test/dev/a.trace-0.png", "t/test/dev/a.trace.log"⟩
      rfl rfl rfl).2 none "dev" ctrace ⟨"dev", md5hex pixBytes⟩ true
      [("t1/a.trace", ⟨md5hex pixBytes, md5hex pixBytes, none⟩)]
      [.makeDirs "./results/t1/test/dev",
       .moveFile "t/test/dev/a.trace.log" "./results/t1/test/dev/a.trace.log"]
      rfl rfl⟩

/-! ### Last-write-wins machinery for C10

The report is a Python dict updated once per evaluation; the lemmas
below characterise, for an arbitrary manifest, the final binding of
every trace path as the record filed by the last evaluation of that
path, and show the report never holds two records for one path. -/

/-- The last element of a record list, or the default when the list is
empty: the fold of repeated overwriting. -/
def lastOr : List ResRecord → Option ResRecord → Option ResRecord
  | [], dflt => dflt
  | r :: l, _ => lastOr l (some r)

theorem lastOr_append (l1 l2 : List ResRecord) (dflt : Option ResRecord) :
    lastOr (l1 ++ l2) dflt = lastOr l2 (lastOr l1 dflt) := by
  induction l1 generalizing dflt with
  | nil => rfl
  | cons r l ih => simp only [List.cons_append, lastOr, List.append_eq, ih]

/-- `lastOr` with no default is `List.getLast?`. -/
theorem lastOr_eq_getLast? (l : List ResRecord) :
    lastOr l none = l.getLast? := by
  have key : ∀ (l : List ResRecord) (r : ResRecord),
      lastOr l (some r) = some (l.getLastD r) := by
    intro l
    induction l with
    | nil => intro r; rfl
    | cons x l ih =>
      intro r
      rw [show lastOr (x :: l) (some r) = lastOr l (some x) from rfl, ih,
        List.getLastD_cons]
  cases l with
  | nil => rfl
  | cons r l =>
    rw [show lastOr (r :: l) none = lastOr l (some r) from rfl, key,
      List.getLast?_cons, List.getLastD_eq_getLast?]

/-- The record `gitlab_check_trace` files for one evaluation (`none`
when the check aborts the run). -/
def pairRec (env : Env) (purl : Option String) (d : String)
    (t : Trace) (e : Expectation) : Option ResRecord :=
  match gitlab_check_trace env purl d t e with
  | .error _ => none
  | .ok (_, res, _) => res.head?.map Prod.snd

/-- The records filed for trace path `k` by one trace's expectation
loop, in evaluation order. -/
def recsForTrace (env : Env) (purl : Option String) (d k : String)
    (t : Trace) (es : List Expectation) : List ResRecord :=
  (es.filter (fun e => e.device == d)).filterMap
    (fun e => if t.path = k then pairRec env purl d t e else none)

/-- The records filed for trace path `k` across the whole run, in
evaluation order. -/
def recsFor (env : Env) (purl : Option String) (d k : String)
    (ts : List Trace) : List ResRecord :=
  (evalPairs d ts).filterMap
    (fun p => if p.1.path = k then pairRec env purl d p.1 p.2 else none)

theorem recsFor_cons (env : Env) (purl : Option String) (d k : String)
    (t : Trace) (ts : List Trace) :
    recsFor env purl d k (t :: ts) =
      recsForTrace env purl d k t t.expectations ++
        recsFor env purl d k ts := by
  unfold recsFor recsForTrace evalPairs
  rw [List.flatMap_cons, List.filterMap_append, List.filterMap_map]
  rfl

/-- Updating a key rebinds exactly that key (map-replace branch). -/
theorem lookup_map_replace_self (kv : String × ResRecord) :
    ∀ m : Results, m.any (fun p => p.1 == kv.1) = true →
      lookupRes kv.1 (m.map (fun p => if p.1 = kv.1 then kv else p)) =
        some kv.2 := by
  intro m
  induction m with
  | nil => intro h; simp at h
  | cons p m ih =>
    intro h
    by_cases hp : p.1 = kv.1
    · rw [List.map_cons, if_pos hp]
      simp [lookupRes]
    · rw [List.map_cons, if_neg hp]
      simp only [lookupRes]
      rw [if_neg hp]
      apply ih
      simp only [List.any_cons, Bool.or_eq_true] at h
      rcases h with h | h
      · exact absurd (by simpa using h) hp
      · exact h

/-- Updating a key rebinds exactly that key (append branch). -/
theorem lookup_append_self (kv : String × ResRecord) :
    ∀ m : Results, m.any (fun p => p.1 == kv.1) = false →
      lookupRes kv.1 (m ++ [kv]) = some kv.2 := by
  intro m
  induction m with
  | nil => intro _; simp [lookupRes]
  | cons p m ih =>
    intro h
    simp only [List.any_cons, Bool.or_eq_false_iff] at h
    simp only [List.cons_append, lookupRes]
    rw [if_neg (by simpa using h.1)]
    exact ih h.2

/-- `dict.update` makes the updated key's binding the new record. -/
theorem dictUpdate1_lookup_self (m : Results) (kv : String × ResRecord) :
    lookupRes kv.1 (dictUpdate1 m kv) = some kv.2 := by
  unfold dictUpdate1
  split
  next hany => exact lookup_map_replace_self kv m hany
  next hany => exact lookup_append_self kv m (Bool.eq_false_iff.mpr hany)

/-- Replacing a binding in place leaves the key list unchanged. -/
theorem map_replace_keys (kv : String × ResRecord) :
    ∀ m : Results,
      (m.map (fun p => if p.1 = kv.1 then kv else p)).map Prod.fst =
        m.map Prod.fst := by
  intro m
  induction m with
  | nil => rfl
  | cons p m ih =>
    by_cases hp : p.1 = kv.1
    · simp only [List.map_cons, if_pos hp, ih, List.cons.injEq]
      exact ⟨hp.symm, trivial⟩
    · simp only [List.map_cons, if_neg hp, ih]

/-- `dict.update` keeps the report's keys distinct. -/
theorem dictUpdate1_keys_nodup (m : Results) (kv : String × ResRecord)
    (h : (m.map Prod.fst).Nodup) :
    ((dictUpdate1 m kv).map Prod.fst).Nodup := by
  unfold dictUpdate1
  split
  next hany =>
    rw [map_replace_keys]
    exact h
  next hany =>
    have hnot : kv.1 ∉ m.map Prod.fst := by
      intro hmem
      apply hany
      obtain ⟨p, hp, hfst⟩ := List.mem_map.mp hmem
      exact List.any_eq_true.mpr ⟨p, hp, by simp [hfst]⟩
    simp only [List.map_append, List.map_cons, List.map_nil]
    rw [List.nodup_append_comm]
    exact List.nodup_cons.mpr ⟨hnot, h⟩

/-- The inner loop keeps the report's keys distinct. -/
theorem runExpList_keys_nodup (env : Env) (purl : Option String)
    (d : String) (t : Trace) :
    ∀ (es : List Expectation) (st st' : RunSt),
      runExpList env purl d t st es = .ok st' →
      (st.2.1.map Prod.fst).Nodup → (st'.2.1.map Prod.fst).Nodup := by
  intro es
  induction es with
  | nil =>
    intro st st' h hn
    simp only [runExpList, Except.ok.injEq] at h
    rw [← h]
    exact hn
  | cons e es ih =>
    intro st st' h hn
    simp only [runExpList] at h
    by_cases hd : (e.device == d) = true
    · rw [if_pos hd] at h
      cases hchk : gitlab_check_trace env purl d t e with
      | error err => rw [hchk] at h; exact Except.noConfusion h
      | ok v =>
        obtain ⟨ok1, r1, f1⟩ := v
        rw [hchk] at h
        obtain ⟨rec, hrec, -⟩ := check_shape env purl d t e ok1 r1 f1 hchk
        refine ih _ _ h ?_
        simp only [hrec, dictUpdate, List.foldl_cons, List.foldl_nil]
        exact dictUpdate1_keys_nodup st.2.1 (t.path, rec) hn
    · rw [if_neg hd] at h
      exact ih _ _ h hn

/-- The outer loop keeps the report's keys distinct: the report holds
at most one record per trace path. -/
theorem runTraceList_keys_nodup (env : Env) (purl : Option String)
    (d : String) :
    ∀ (ts : List Trace) (st st' : RunSt),
      runTraceList env purl d st ts = .ok st' →
      (st.2.1.map Prod.fst).Nodup → (st'.2.1.map Prod.fst).Nodup := by
  intro ts
  induction ts with
  | nil =>
    intro st st' h hn
    simp only [runTraceList, Except.ok.injEq] at h
    rw [← h]
    exact hn
  | cons t ts ih =>
    intro st st' h hn
    simp only [runTraceList] at h
    cases hexp : runExpList env purl d t st t.expectations with
    | error err => rw [hexp] at h; exact Except.noConfusion h
    | ok st1 =>
      rw [hexp] at h
      exact ih _ _ h
        (runExpList_keys_nodup env purl d t t.expectations st st1 hexp hn)

/-- After the inner loop, a path's binding is the last record the loop
filed for it, or the incoming binding when it filed none. -/
theorem runExpList_lookup_last (env : Env) (purl : Option String)
    (d : String) (t : Trace) (k : String) :
    ∀ (es : List Expectation) (st st' : RunSt),
      runExpList env purl d t st es = .ok st' →
      lookupRes k st'.2.1 =
        lastOr (recsForTrace env purl d k t es) (lookupRes k st.2.1) := by
  intro es
  induction es with
  | nil =>
    intro st st' h
    simp only [runExpList, Except.ok.injEq] at h
    rw [← h]
    rfl
  | cons e es ih =>
    intro st st' h
    simp only [runExpList] at h
    by_cases hd : (e.device == d) = true
    · rw [if_pos hd] at h
      cases hchk : gitlab_check_trace env purl d t e with
      | error err => rw [hchk] at h; exact Except.noConfusion h
      | ok v =>
        obtain ⟨ok1, r1, f1⟩ := v
        rw [hchk] at h
        obtain ⟨rec, hrec, -⟩ := check_shape env purl d t e ok1 r1 f1 hchk
        have hpr : pairRec env purl d t e = some rec := by
          unfold pairRec
          rw [hchk, hrec]
          rfl
        have hnext := ih _ _ h
        by_cases hk : t.path = k
        · have hlook : lookupRes k (dictUpdate st.2.1 r1) = some rec := by
            simp only [hrec, dictUpdate, List.foldl_cons, List.foldl_nil]
            exact hk ▸ dictUpdate1_lookup_self st.2.1 (t.path, rec)
          have hrecs : recsForTrace env purl d k t (e :: es) =
              rec :: recsForTrace env purl d k t es := by
            unfold recsForTrace
            simp [List.filter_cons, hd, List.filterMap_cons, hk, hpr]
          rw [hnext, hlook, hrecs]
          rfl
        · have hlook : lookupRes k (dictUpdate st.2.1 r1) =
              lookupRes k st.2.1 := by
            simp only [hrec, dictUpdate, List.foldl_cons, List.foldl_nil]
            exact dictUpdate1_lookup_ne k (t.path, rec) hk st.2.1
          have hrecs : recsForTrace env purl d k t (e :: es) =
              recsForTrace env purl d k t es := by
            unfold recsForTrace
            simp [List.filter_cons, hd, List.filterMap_cons, hk]
          rw [hnext, hlook, hrecs]
    · rw [if_neg hd] at h
      have hrecs : recsForTrace env purl d k t (e :: es) =
          recsForTrace env purl d k t es := by
        unfold recsForTrace
        simp [List.filter_cons, hd]
      rw [ih _ _ h, hrecs]

/-- After the whole run loop, a path's binding is the last record any
evaluation filed for it: the last write wins. -/
theorem runTraceList_lookup_last (env : Env) (purl : Option String)
    (d : String) (k : String) :
    ∀ (ts : List Trace) (st st' : RunSt),
      runTraceList env purl d st ts = .ok st' →
      lookupRes k st'.2.1 =
        lastOr (recsFor env purl d k ts) (lookupRes k st.2.1) := by
  intro ts
  induction ts with
  | nil =>
    intro st st' h
    simp only [runTraceList, Except.ok.injEq] at h
    rw [← h]
    rfl
  | cons t ts ih =>
    intro st st' h
    simp only [runTraceList] at h
    cases hexp : runExpList env purl d t st t.expectations with
    | error err => rw [hexp] at h; exact Except.noConfusion h
    | ok st1 =>
      rw [hexp] at h
      rw [ih _ _ h, recsFor_cons, lastOr_append,
        runExpList_lookup_last env purl d t k t.expectations st st1 hexp]

/-- C10: in every manifest in which a trace path has more than one
expectation matching the requested device, each matching expectation is
evaluated and folded into the overall pass/fail conjunction, the result
report retains at most one record per trace path, and the record kept
for a path is the one filed by the last evaluation of that path — it
overwrites the earlier ones. -/
theorem c10_duplicate_overwrites (env : Env) (m : Manifest) (d : String)
    (t : Trace) (allOk : Bool) (res : Results) (effs : List Effect)
    (_ht : t ∈ m.traces)
    (_hdup : 1 < ((evalPairs d m.traces).filter
      (fun p => p.1.path == t.path)).length)
    (h : run env m d = .ok (allOk, res, effs)) :
    allOk = ((evalPairs d m.traces).all
      (fun p => pairOk env m.downloadUrl d p.1 p.2 == some true))
    ∧ (res.map Prod.fst).Nodup
    ∧ lookupRes t.path res =
        (recsFor env m.downloadUrl d t.path m.traces).getLast?
    ∧ (∀ (r : ResRecord) (l' : List ResRecord),
        recsFor env m.downloadUrl d t.path m.traces = l' ++ [r] →
        lookupRes t.path res = some r) := by
  obtain ⟨effs0, hrt⟩ := run_ok_elim env m d allOk res effs h
  have h1 := runTraceList_all_ok env m.downloadUrl d m.traces _ _ hrt
  have h2 := runTraceList_keys_nodup env m.downloadUrl d m.traces _ _ hrt
    (by simp)
  have h3 := runTraceList_lookup_last env m.downloadUrl d t.path m.traces
    _ _ hrt
  have h3' : lookupRes t.path res =
      lastOr (recsFor env m.downloadUrl d t.path m.traces) none := by
    simpa [lookupRes] using h3
  refine ⟨by simpa using h1, by simpa using h2,
    by rw [h3', lastOr_eq_getLast?], ?_⟩
  intro r l' hrec
  rw [h3', hrec, lastOr_append]
  rfl

/-- A fixture trace with two expectations for the same device, the
second of which mismatches. -/
def ctrace2 : Trace :=
  ⟨"t1/a.trace", [⟨"dev", md5hex pixBytes⟩, ⟨"dev", "0123"⟩]⟩

/-- The record the second (mismatching) evaluation of `ctrace2`
files. -/
def cRec10 : ResRecord :=
  ⟨"0123", md5hex pixBytes, some "t1/test/dev/a.trace-0.png"⟩

set_option maxRecDepth 1000000 in
/-- Witness for C10: a manifest whose single trace has two expectations
for the requested device; the run keeps one record, the second one. -/
theorem c10_witness :
    (ctrace2 ∈ (Manifest.mk none [ctrace2]).traces
     ∧ 1 < ((evalPairs "dev" [ctrace2]).filter
        (fun p => p.1.path == Trace.path ctrace2)).length
     ∧ run cenvOk ⟨none, [ctrace2]⟩ "dev" =
        .ok (false, [("t1/a.trace", cRec10)],
          [.makeDirs "./results/t1/test/dev",
           .moveFile "t/test/dev/a.trace.log"
             "./results/t1/test/dev/a.trace.log",
           .makeDirs "./results/t1/test/dev",
           .moveFile "t/test/dev/a.trace.log"
             "./results/t1/test/dev/a.trace.log",
           .moveFile "t/test/dev/a.trace-0.png"
             "./results/t1/test/dev/a.trace-0.png",
           .makeDirs "./results/",
           .writeYaml "./results/results.yml"
             [("t1/a.trace", cRec10)]]))
    ∧ (false = ((evalPairs "dev" [ctrace2]).all
        (fun p => pairOk cenvOk none "dev" p.1 p.2 == some true))
      ∧ (([("t1/a.trace", cRec10)] : Results).map Prod.fst).Nodup
      ∧ lookupRes "t1/a.trace" [("t1/a.trace", cRec10)] =
          (recsFor cenvOk none "dev" "t1/a.trace" [ctrace2]).getLast?
      ∧ (∀ (r : ResRecord) (l' : List ResRecord),
          recsFor cenvOk none "dev" "t1/a.trace" [ctrace2] = l' ++ [r] →
          lookupRes "t1/a.trace" [("t1/a.trace", cRec10)] = some r)) :=
  ⟨⟨List.mem_singleton.mpr rfl, by decide, rfl⟩,
   c10_duplicate_overwrites cenvOk ⟨none, [ctrace2]⟩ "dev" ctrace2 false
     [("t1/a.trace", cRec10)]
     [.makeDirs "./results/t1/test/dev",
      .moveFile "t/test/dev/a.trace.log" "./results/t1/test/dev/a.trace.log",
      .makeDirs "./results/t1/test/dev",
      .moveFile "t/test/dev/a.trace.log" "./results/t1/test/dev/a.trace.log",
      .moveFile "t/test/dev/a.trace-0.png"
        "./results/t1/test/dev/a.trace-0.png",
      .makeDirs "./results/",
      .writeYaml "./results/results.yml" [("t1/a.trace", cRec10)]]
     (List.mem_singleton.mpr rfl) (by decide) rfl⟩

/-- C3: the rendered image is moved into the results tree exactly when
the checksum comparison failed or `TRACIE_STORE_IMAGES` is `"1"`; when
it is stored, the trace's report record carries the relative path of
the stored image, and on a match with the flag unset no image is stored
and the record has no image path. -/
theorem c3_image_storage (env : Env) (purl : Option String) (d : String)
    (t : Trace) (e : Expectation) (out : ReplayOut) (ok : Bool)
    (res : Results) (effs : List Effect)
    (hrep : env.replayOut (TRACES_DB_PATH ++ t.path) d = some out)
    (hfiles : out.imageFile ≠ out.logFile)
    (h : gitlab_check_trace env purl d t e = .ok (ok, res, effs)) :
    ((∃ dst, Effect.moveFile out.imageFile dst ∈ effs) ↔
      (md5hex out.imageBytes ≠ e.checksum ∨ env.storeImages.getD "0" = "1"))
    ∧ res = [(t.path,
        ⟨e.checksum, md5hex out.imageBytes,
         if md5hex out.imageBytes ≠ e.checksum ∨
            env.storeImages.getD "0" = "1"
         then some (joinPath (joinPath (joinPath (dirname t.path) "test") d)
                (basename out.imageFile))
         else none⟩)] := by
  cases hE : gitlab_ensure_trace env purl t with
  | error err =>
    unfold gitlab_check_trace at h
    rw [hE] at h
    exact Except.noConfusion h
  | ok effs0 =>
    have hnm := ensure_no_move env purl t effs0 hE
    rw [check_ok_unfold env purl d t e out effs0 hE hrep] at h
    simp only [] at h
    split at h
    · exact Except.noConfusion h
    next effs2 hup =>
      have h2nm : ∀ src dst, Effect.moveFile src dst ∉ effs2 := by
        intro src dst
        split at hup
        · rw [upload_ok_effects env out.imageFile
            ("traces/" ++ md5hex out.imageBytes ++ ".png") "image/png"
            effs2 hup]
          simp
        · simp only [Except.ok.injEq] at hup
          rw [← hup]
          simp
      simp only [Except.ok.injEq, Prod.mk.injEq] at h
      obtain ⟨hok, hres, heffs⟩ := h
      subst hres
      subst heffs
      by_cases h1 : md5hex out.imageBytes = e.checksum
      · by_cases h2 : env.storeImages.getD "0" = "1"
        · -- match, flag set: image stored
          have hb1 : (md5hex out.imageBytes == e.checksum) = true := by
            simp [h1]
          have hb2 : (env.storeImages.getD "0" == "1") = true := by
            simp [h2]
          refine ⟨⟨fun _ => Or.inr h2, fun _ => ?_⟩, ?_⟩
          · refine ⟨joinPath (joinPath RESULTS_PATH
              (joinPath (joinPath (dirname t.path) "test") d))
              (basename out.imageFile), ?_⟩
            simp [hb1, hb2]
          · simp [h1, h2, hb1, hb2]
        · -- match, flag unset: nothing stored
          have hb1 : (md5hex out.imageBytes == e.checksum) = true := by
            simp [h1]
          have hb2 : (env.storeImages.getD "0" == "1") = false := by
            simp [h2]
          have he2 : effs2 = [] := by
            simp only [hb1, Bool.not_true, Bool.false_and,
              Bool.false_eq_true, if_false, Except.ok.injEq] at hup
            exact hup.symm
          subst he2
          refine ⟨⟨?_, ?_⟩, ?_⟩
          · rintro ⟨dst, hmem⟩
            have hred : ((effs0 ++
                [Effect.makeDirs (joinPath RESULTS_PATH
                  (joinPath (joinPath (dirname t.path) "test") d)),
                 Effect.moveFile out.logFile
                   (joinPath (joinPath RESULTS_PATH
                     (joinPath (joinPath (dirname t.path) "test") d))
                     (basename out.logFile))]) ++ ([] : List Effect)) ++
                (if (!(md5hex out.imageBytes == e.checksum) ||
                    (env.storeImages.getD "0" == "1")) = true then
                  [Effect.moveFile out.imageFile
                    (joinPath (joinPath RESULTS_PATH
                      (joinPath (joinPath (dirname t.path) "test") d))
                      (basename out.imageFile))]
                 else []) =
                effs0 ++
                [Effect.makeDirs (joinPath RESULTS_PATH
                  (joinPath (joinPath (dirname t.path) "test") d)),
                 Effect.moveFile out.logFile
                   (joinPath (joinPath RESULTS_PATH
                     (joinPath (joinPath (dirname t.path) "test") d))
                     (basename out.logFile))] := by
              simp [hb1, hb2]
            rw [hred] at hmem
            rcases List.mem_append.mp hmem with hm | hm
            · exact absurd hm (hnm _ _)
            · simp only [List.mem_cons, List.not_mem_nil, or_false] at hm
              rcases hm with hm | hm
              · exact Effect.noConfusion hm
              · injection hm with hsrc hdst
                exact absurd hsrc hfiles
          · rintro (hP | hP)
            · exact absurd h1 hP
            · exact absurd hP h2
          · simp [h1, h2, hb1, hb2]
      · -- mismatch: image stored regardless of the flag
        have hb1 : (md5hex out.imageBytes == e.checksum) = false := by
          simp [h1]
        refine ⟨⟨fun _ => Or.inl h1, fun _ => ?_⟩, ?_⟩
        · refine ⟨joinPath (joinPath RESULTS_PATH
            (joinPath (joinPath (dirname t.path) "test") d))
            (basename out.imageFile), ?_⟩
          simp [hb1]
        · simp [h1, hb1]

set_option maxRecDepth 1000000 in
/-- Witness for C3: a passing trace with the store flag unset — no
image move effect and no image path in the record. -/
theorem c3_witness :
    (cenvOk.replayOut (TRACES_DB_PATH ++ ctrace.path) "dev" =
       some ⟨pixBytes, "t/test/dev/a.trace-0.png", "t/test/dev/a.trace.log"⟩
     ∧ ("t/test/dev/a.trace-0.png" : String) ≠ "t/test/dev/a.trace.log"
     ∧ gitlab_check_trace cenvOk none "dev" ctrace ⟨"dev", md5hex pixBytes⟩ =
        .ok (true,
          [("t1/a.trace", ⟨md5hex pixBytes, md5hex pixBytes, none⟩)],
          [.makeDirs "./results/t1/test/dev",
           .moveFile "t/test/dev/a.trace.log"
             "./results/t1/test/dev/a.trace.log"]))
    ∧ (((∃ dst, Effect.moveFile "t/test/dev/a.trace-0.png" dst ∈
          [Effect.makeDirs "./results/t1/test/dev",
           Effect.moveFile "t/test/dev/a.trace.log"
             "./results/t1/test/dev/a.trace.log"]) ↔
        (md5hex pixBytes ≠ Expectation.checksum ⟨"dev", md5hex pixBytes⟩ ∨
          Option.getD cenvOk.storeImages "0" = "1"))
      ∧ [("t1/a.trace", (⟨md5hex pixBytes, md5hex pixBytes, none⟩ : ResRecord))] =
        [("t1/a.trace",
          ⟨Expectation.checksum ⟨"dev", md5hex pixBytes⟩, md5hex pixBytes,
           if md5hex pixBytes ≠ Expectation.checksum ⟨"dev", md5hex pixBytes⟩ ∨
              Option.getD cenvOk.storeImages "0" = "1"
           then some (joinPath (joinPath (joinPath (dirname "t1/a.trace")
                  "test") "dev") (basename "t/test/dev/a.trace-0.png"))
           else none⟩)]) :=
  ⟨⟨rfl, by decide, rfl⟩,
   c3_image_storage cenvOk none "dev" ctrace ⟨"dev", md5hex pixBytes⟩
     ⟨pixBytes, "t/test/dev/a.trace-0.png", "t/test/dev/a.trace.log"⟩ true
     [("t1/a.trace", ⟨md5hex pixBytes, md5hex pixBytes, none⟩)]
     [.makeDirs "./results/t1/test/dev",
      .moveFile "t/test/dev/a.trace.log" "./results/t1/test/dev/a.trace.log"]
     rfl (by decide) rfl⟩

/-- Counterexample to C4 as stated: on a replay error the check files
nothing at all — the effect list is empty, so the replay log is not
moved into the results tree for that evaluation. -/
theorem c4_counterexample :
    gitlab_check_trace cenvErr none "dev" ctrace ⟨"dev", md5hex pixBytes⟩ =
      .ok (false, [("t1/a.trace", ⟨md5hex pixBytes, "error", none⟩)], [])
    ∧ ¬ ∃ src dst, Effect.moveFile src dst ∈ ([] : List Effect) :=
  ⟨rfl, by rintro ⟨src, dst, hmem⟩; simp at hmem⟩

/-- C4 (amended): whenever the replay succeeds — on pass and on
checksum mismatch alike — the replay log file is moved (not copied)
from its temporary location into the results tree; on a replay error
the check performs no file move at all. -/
theorem c4_log_always_moved (env : Env) (purl : Option String)
    (d : String) (t : Trace) (e : Expectation) :
    (∀ out ok res effs,
      env.replayOut (TRACES_DB_PATH ++ t.path) d = some out →
      gitlab_check_trace env purl d t e = .ok (ok, res, effs) →
      Effect.moveFile out.logFile
        (joinPath (joinPath RESULTS_PATH
          (joinPath (joinPath (dirname t.path) "test") d))
          (basename out.logFile)) ∈ effs)
    ∧ (∀ ok res effs,
      env.replayOut (TRACES_DB_PATH ++ t.path) d = none →
      gitlab_check_trace env purl d t e = .ok (ok, res, effs) →
      ∀ src dst, Effect.moveFile src dst ∉ effs) := by
  constructor
  · intro out ok res effs hrep h
    cases hE : gitlab_ensure_trace env purl t with
    | error err =>
      unfold gitlab_check_trace at h
      rw [hE] at h
      exact Except.noConfusion h
    | ok effs0 =>
      rw [check_ok_unfold env purl d t e out effs0 hE hrep] at h
      simp only [] at h
      split at h
      · exact Except.noConfusion h
      · simp only [Except.ok.injEq, Prod.mk.injEq] at h
        rw [← h.2.2]
        simp
  · intro ok res effs hrep h src dst
    cases hE : gitlab_ensure_trace env purl t with
    | error err =>
      unfold gitlab_check_trace at h
      rw [hE] at h
      exact Except.noConfusion h
    | ok effs0 =>
      rw [check_err_unfold env purl d t e effs0 hE hrep] at h
      simp only [Except.ok.injEq, Prod.mk.injEq] at h
      rw [← h.2.2]
      exact ensure_no_move env purl t effs0 hE src dst

set_option maxRecDepth 1000000 in
/-- Witness for the amended C4: the log move effect is present on a
successful replay, and a failed replay files nothing. -/
theorem c4_witness :
    (cenvOk.replayOut (TRACES_DB_PATH ++ ctrace.path) "dev" =
       some ⟨pixBytes, "t/test/dev/a.trace-0.png", "t/test/dev/a.trace.log"⟩
     ∧ cenvErr.replayOut (TRACES_DB_PATH ++ ctrace.path) "dev" = none)
    ∧ (Effect.moveFile "t/test/dev/a.trace.log"
        (joinPath (joinPath RESULTS_PATH
          (joinPath (joinPath (dirname "t1/a.trace") "test") "dev"))
          (basename "t/test/dev/a.trace.log")) ∈
        [Effect.makeDirs "./results/t1/test/dev",
         Effect.moveFile "t/test/dev/a.trace.log"
           "./results/t1/test/dev/a.trace.log"]
      ∧ Effect.moveFile "x" "y" ∉ ([] : List Effect)) :=
  ⟨⟨rfl, rfl⟩,
   (c4_log_always_moved cenvOk none "dev" ctrace ⟨"dev", md5hex pixBytes⟩).1
     ⟨pixBytes, "t/test/dev/a.trace-0.png", "t/test/dev/a.trace.log"⟩ true
     [("t1/a.trace", ⟨md5hex pixBytes, md5hex pixBytes, none⟩)]
     [.makeDirs "./results/t1/test/dev",
      .moveFile "t/test/dev/a.trace.log" "./results/t1/test/dev/a.trace.log"]
     rfl rfl,
   (c4_log_always_moved cenvErr none "dev" ctrace ⟨"dev", md5hex pixBytes⟩).2
     false [("t1/a.trace", ⟨md5hex pixBytes, "error", none⟩)] []
     rfl rfl "x" "y"⟩

/-- A world whose object store answers every PUT with status 304. -/
def cenv304 : Env := { cenvOk with httpPutStatus := fun _ => 304 }

/-- A world with uploads enabled whose object store answers every PUT
with status 503. -/
def cenvUpFail : Env :=
  { cenvOk with uploadToMinio := some "1", httpPutStatus := fun _ => 503 }

/-- A fixture trace whose single expectation has a mismatching
checksum. -/
def tBad : Trace := ⟨"t1/a.trace", [⟨"dev", "0123"⟩]⟩

/-- Counterexample to C8 as stated: a PUT answered with 304 — a
non-2xx status — does not raise: `raise_for_status` raises only for
4xx/5xx statuses, so the upload returns normally. -/
theorem c8_counterexample :
    cenv304.httpPutStatus (uploadUrl cenv304 "traces/x.png") = 304
    ∧ ¬ (200 ≤ 304 ∧ 304 < 300)
    ∧ upload_artifact cenv304 "img.png" "traces/x.png" "image/png" =
        .ok [.putArtifact (uploadUrl cenv304 "traces/x.png") "img.png"
          "image/png"] :=
  ⟨rfl, by decide, rfl⟩

/-- C8 (amended): an artifact upload whose HTTP PUT returns a 4xx or
5xx status raises an error which propagates uncaught through both call
sites — the per-trace image upload and the end-of-run results upload —
and aborts the run, with no retry and no local recovery. -/
theorem c8_upload_failure_aborts (env : Env) :
    (∀ f k c, 400 ≤ env.httpPutStatus (uploadUrl env k) →
      env.httpPutStatus (uploadUrl env k) < 600 →
      upload_artifact env f k c =
        .error (.httpError (env.httpPutStatus (uploadUrl env k))))
    ∧ (∀ (purl : Option String) (d : String) (t : Trace) (e : Expectation)
        (out : ReplayOut) (err : Fatal) (effs0 : List Effect),
      gitlab_ensure_trace env purl t = .ok effs0 →
      env.replayOut (TRACES_DB_PATH ++ t.path) d = some out →
      (md5hex out.imageBytes == e.checksum) = false →
      env.uploadToMinio.getD "0" = "1" →
      upload_artifact env out.imageFile
        ("traces/" ++ md5hex out.imageBytes ++ ".png") "image/png" =
        .error err →
      gitlab_check_trace env purl d t e = .error err)
    ∧ (∀ (m : Manifest) (d : String) (t : Trace) (e : Expectation)
        (err : Fatal) (ts : List Trace) (es : List Expectation),
      m.traces = t :: ts → t.expectations = e :: es → e.device = d →
      gitlab_check_trace env m.downloadUrl d t e = .error err →
      run env m d = .error err ∧ tracieMain env m d = .error err)
    ∧ (∀ (m : Manifest) (d : String) (b : Bool) (res : Results)
        (effsL : List Effect) (err : Fatal),
      runTraceList env m.downloadUrl d (true, [], []) m.traces =
        .ok (b, res, effsL) →
      env.uploadToMinio.getD "0" = "1" →
      upload_artifact env (joinPath RESULTS_PATH "results.yml")
        "traces/results.yml" "text/yaml" = .error err →
      run env m d = .error err) := by
  refine ⟨?_, ?_, ?_, ?_⟩
  · intro f k c h4 h6
    unfold upload_artifact
    simp only []
    rw [if_pos ⟨h4, h6⟩]
  · intro purl d t e out err effs0 hE hrep hb hflag hup
    rw [check_ok_unfold env purl d t e out effs0 hE hrep]
    simp only []
    have hflagb : (env.uploadToMinio.getD "0" == "1") = true := by
      simp [hflag]
    simp only [hb, hflagb, Bool.not_false, Bool.and_true, if_true, hup]
  · intro m d t e err ts es hts hexps hd hchk
    have hdb : (e.device == d) = true := by simp [hd]
    have hloop : runTraceList env m.downloadUrl d (true, [], []) m.traces =
        .error err := by
      rw [hts]
      simp only [runTraceList, hexps, runExpList, hdb, if_true, hchk]
    have hrun : run env m d = .error err := by
      unfold run
      rw [hloop]
    exact ⟨hrun, by unfold tracieMain; rw [hrun]⟩
  · intro m d b res effsL err hrt hflag hup
    unfold run
    rw [hrt]
    simp only []
    have hflagb : (env.uploadToMinio.getD "0" == "1") = true := by
      simp [hflag]
    simp only [hflagb, if_true, hup]

set_option maxRecDepth 1000000 in
/-- Witness for the amended C8: a 503 PUT answer aborts the check and
the whole run. -/
theorem c8_witness :
    (400 ≤ cenvUpFail.httpPutStatus (uploadUrl cenvUpFail "traces/k.png")
     ∧ cenvUpFail.httpPutStatus (uploadUrl cenvUpFail "traces/k.png") < 600
     ∧ (Manifest.traces ⟨none, [tBad]⟩) = tBad :: []
     ∧ (Trace.expectations tBad) = (⟨"dev", "0123"⟩ : Expectation) :: []
     ∧ gitlab_check_trace cenvUpFail (Manifest.downloadUrl ⟨none, [tBad]⟩)
        "dev" tBad ⟨"dev", "0123"⟩ = .error (.httpError 503))
    ∧ (upload_artifact cenvUpFail "f.png" "traces/k.png" "image/png" =
        .error (.httpError
          (cenvUpFail.httpPutStatus (uploadUrl cenvUpFail "traces/k.png")))
      ∧ run cenvUpFail ⟨none, [tBad]⟩ "dev" = .error (.httpError 503)
      ∧ tracieMain cenvUpFail ⟨none, [tBad]⟩ "dev" =
          .error (.httpError 503)) :=
  ⟨⟨by decide, by decide, rfl, rfl, rfl⟩,
   (c8_upload_failure_aborts cenvUpFail).1 "f.png" "traces/k.png" "image/png"
     (by decide) (by decide),
   ((c8_upload_failure_aborts cenvUpFail).2.2.1 ⟨none, [tBad]⟩ "dev" tBad
     ⟨"dev", "0123"⟩ (.httpError 503) [] [] rfl rfl rfl rfl).1,
   ((c8_upload_failure_aborts cenvUpFail).2.2.1 ⟨none, [tBad]⟩ "dev" tBad
     ⟨"dev", "0123"⟩ (.httpError 503) [] [] rfl rfl rfl rfl).2⟩

/-! ## The JUnit report (modelled from the spec)

`tracie.py` as present under `src` does not contain the JUnit writer,
but the repository's own test suite (`tests/test.py`) parses
`results/junit.xml` and asserts its shape, so the writer is repository
code missing from `src`; the following definitions model it from the
spec's Result Aggregator contract and external-interface section. -/

/-- An XML element: tag, attributes, text content and child elements. -/
inductive Xml where
  | elem (tag : String) (attrs : List (String × String)) (text : String)
      (children : List Xml)

def Xml.tag : Xml → String
  | .elem t _ _ _ => t

def Xml.attrs : Xml → List (String × String)
  | .elem _ a _ _ => a

def Xml.text : Xml → String
  | .elem _ _ x _ => x

def Xml.children : Xml → List Xml
  | .elem _ _ _ c => c

/-- Modelled from the spec: the dashboard URL placed in `<failure>`
elements, `https://<host>/dashboard/imagediff/<project>/<job-id>/<trace
path>`, built from the CI project path, the job ID and the trace
path. -/
def dashboardUrl (project jobId tracePath : String) : String :=
  "https://tracie.freedesktop.org/dashboard/imagediff/" ++ project ++ "/" ++
    jobId ++ "/" ++ tracePath

/-- Modelled from the spec: one `<testcase>` per evaluated trace, named
by the trace path, with the suite name as `classname`; a failing trace
(recorded actual differing from expected) carries a nested `<failure>`
element whose text contains the dashboard URL. -/
def junitTestcase (suiteName project jobId : String)
    (entry : String × ResRecord) : Xml :=
  .elem "testcase" [("name", entry.1), ("classname", suiteName)] ""
    (if entry.2.actual = entry.2.expected then []
     else [.elem "failure" []
       ("To view the image differences visit: " ++
         dashboardUrl project jobId entry.1) []])

/-- Modelled from the spec: one
`<testsuite name="<manifest>:<device>">` per (manifest, device) pair,
holding one test-case per evaluated trace of that pair. -/
def junitSuite (manifestName device project jobId : String)
    (results : Results) : Xml :=
  .elem "testsuite" [("name", manifestName ++ ":" ++ device)] ""
    (results.map
      (junitTestcase (manifestName ++ ":" ++ device) project jobId))

/-- Modelled from the spec: the `<testsuites>` root of the JUnit
document written at the end of a run. -/
def junitReport (project jobId : String)
    (suites : List (String × String × Results)) : Xml :=
  .elem "testsuites" [] ""
    (suites.map (fun s => junitSuite s.1 s.2.1 project jobId s.2.2))

/-- C5: besides the YAML results file (whose write `run` always emits),
the JUnit document has a `<testsuites>` root with one `<testsuite>`
named `<manifest>:<device>` per (manifest, device) pair, one
`<testcase>` per evaluated trace, and, for each failing trace, a nested
`<failure>` element whose text contains the dashboard URL built from
the project path, job ID and trace path. -/
theorem c5_junit_report (project jobId mName dev : String)
    (suites : List (String × String × Results)) (results : Results) :
    (∀ (env : Env) (m : Manifest) (d : String) (b : Bool) (res : Results)
      (effs : List Effect),
      run env m d = .ok (b, res, effs) →
      Effect.writeYaml (joinPath RESULTS_PATH "results.yml") res ∈ effs)
    ∧ (junitReport project jobId suites).tag = "testsuites"
    ∧ (junitReport project jobId suites).children.length = suites.length
    ∧ (∀ s ∈ suites,
        junitSuite s.1 s.2.1 project jobId s.2.2 ∈
          (junitReport project jobId suites).children)
    ∧ (junitSuite mName dev project jobId results).tag = "testsuite"
    ∧ (junitSuite mName dev project jobId results).attrs =
        [("name", mName ++ ":" ++ dev)]
    ∧ (junitSuite mName dev project jobId results).children.length =
        results.length
    ∧ (∀ entry ∈ results,
        junitTestcase (mName ++ ":" ++ dev) project jobId entry ∈
          (junitSuite mName dev project jobId results).children
        ∧ (junitTestcase (mName ++ ":" ++ dev) project jobId entry).tag =
            "testcase"
        ∧ (junitTestcase (mName ++ ":" ++ dev) project jobId entry).attrs =
            [("name", entry.1), ("classname", mName ++ ":" ++ dev)]
        ∧ (ResRecord.actual entry.2 ≠ ResRecord.expected entry.2 →
          ∃ f hd tl,
            (junitTestcase (mName ++ ":" ++ dev) project jobId
              entry).children = [f]
            ∧ f.tag = "failure"
            ∧ f.text = hd ++ dashboardUrl project jobId entry.1 ++ tl)
        ∧ (ResRecord.actual entry.2 = ResRecord.expected entry.2 →
          (junitTestcase (mName ++ ":" ++ dev) project jobId
            entry).children = [])) := by
  refine ⟨?_, rfl, by simp [junitReport, Xml.children], ?_, rfl, rfl,
    by simp [junitSuite, Xml.children], ?_⟩
  · intro env m d b res effs h
    unfold run at h
    cases hrt : runTraceList env m.downloadUrl d (true, [], []) m.traces with
    | error err => rw [hrt] at h; exact Except.noConfusion h
    | ok st =>
      obtain ⟨b', r', f'⟩ := st
      rw [hrt] at h
      simp only [] at h
      split at h
      · exact Except.noConfusion h
      · simp only [Except.ok.injEq, Prod.mk.injEq] at h
        obtain ⟨hb, hres, heffs⟩ := h
        rw [← heffs, ← hres]
        simp
  · intro s hs
    simp only [junitReport, Xml.children]
    exact List.mem_map.mpr ⟨s, hs, rfl⟩
  · intro entry hmem
    refine ⟨?_, rfl, rfl, ?_, ?_⟩
    · simp only [junitSuite, Xml.children]
      exact List.mem_map.mpr ⟨entry, hmem, rfl⟩
    · intro hne
      refine ⟨.elem "failure" []
        ("To view the image differences visit: " ++
          dashboardUrl project jobId entry.1) [], ?_⟩
      refine ⟨"To view the image differences visit: ", "", ?_, rfl, ?_⟩
      · simp [junitTestcase, Xml.children, hne]
      · simp [Xml.text]
    · intro heq
      simp [junitTestcase, Xml.children, heq]

/-- A failing fixture record: actual differs from expected. -/
def cFailRec : ResRecord := ⟨"0123", "abcd", none⟩

/-- A one-entry fixture report containing the failing record. -/
def cFailResults : Results := [("t1/a.trace", cFailRec)]

/-- Witness for C5 at a concrete failing report and a concrete run. -/
theorem c5_witness :
    (run cenvErr ⟨none, [ctrace]⟩ "dev" =
      .ok (false, [("t1/a.trace", ⟨md5hex pixBytes, "error", none⟩)],
        [.makeDirs "./results/",
         .writeYaml "./results/results.yml"
           [("t1/a.trace", ⟨md5hex pixBytes, "error", none⟩)]])
     ∧ ("t1/a.trace", cFailRec) ∈ cFailResults
     ∧ ResRecord.actual cFailRec ≠ ResRecord.expected cFailRec)
    ∧ (Effect.writeYaml (joinPath RESULTS_PATH "results.yml")
        [("t1/a.trace", ⟨md5hex pixBytes, "error", none⟩)] ∈
        [Effect.makeDirs "./results/",
         Effect.writeYaml "./results/results.yml"
           [("t1/a.trace", ⟨md5hex pixBytes, "error", none⟩)]]
      ∧ (junitReport "proj" "42" [("traces.yml", "dev", cFailResults)]).tag =
          "testsuites"
      ∧ ∃ f hd tl,
          (junitTestcase ("traces.yml" ++ ":" ++ "dev") "proj" "42"
            ("t1/a.trace", cFailRec)).children = [f]
          ∧ f.tag = "failure"
          ∧ f.text = hd ++ dashboardUrl "proj" "42" "t1/a.trace" ++ tl) :=
  ⟨⟨rfl, List.mem_singleton.mpr rfl, by decide⟩,
   (c5_junit_report "proj" "42" "traces.yml" "dev"
       [("traces.yml", "dev", cFailResults)] cFailResults).1
     cenvErr ⟨none, [ctrace]⟩ "dev" false
     [("t1/a.trace", ⟨md5hex pixBytes, "error", none⟩)]
     [.makeDirs "./results/",
      .writeYaml "./results/results.yml"
        [("t1/a.trace", ⟨md5hex pixBytes, "error", none⟩)]]
     rfl,
   (c5_junit_report "proj" "42" "traces.yml" "dev"
       [("traces.yml", "dev", cFailResults)] cFailResults).2.1,
   ((c5_junit_report "proj" "42" "traces.yml" "dev"
       [("traces.yml", "dev", cFailResults)] cFailResults).2.2.2.2.2.2.2
     ("t1/a.trace", cFailRec) (List.mem_singleton.mpr rfl)).2.2.2.1
     (by decide)⟩

end Tracie
